import Mathlib

/-!
Verification development for the session-scoped PDF question-answering
service in app.py.  The definitions below shallowly embed the pure data
flow of the source: the numbered-list follow-up parser (parse_questions),
the process-wide session store (session_data and user_retrievers), and the
three endpoint handlers (upload_file, ask_question, clear_session).
External collaborators (PDF loading, text splitting, the embedding and
completion providers, werkzeug filename sanitisation) appear as
environment inputs carrying their observable outcomes, exactly at the
points the source consults them.
-/

namespace AIChatbot

/-! ## Follow-up parser

The source extracts follow-up questions with
  re.findall of a multiline pattern: line start, one or more digits, a
  literal dot, one whitespace character, then the rest of the line,
then strips the leading numeral-dot-space from each match and strips
surrounding whitespace.  We model strings as their character lists and
the ASCII fragment of the regex classes for digits and whitespace. -/

/-- The digit class of the pattern, ASCII fragment. -/
def isDigitC (c : Char) : Bool :=
  decide ('0' ≤ c) && decide (c ≤ '9')

/-- The whitespace class of the pattern and of str.strip, ASCII fragment. -/
def isSpaceC (c : Char) : Bool :=
  c = ' ' || c = '\t' || c = '\n' || c = '\r' || c = '\x0b' || c = '\x0c'

/-- Drop characters up to and including the next newline: the scanner
resumes at the next line start. -/
def skipLine : List Char → List Char
  | [] => []
  | c :: cs => if c = '\n' then cs else skipLine cs

/-- Try to match the pattern (one or more digits, a dot, one whitespace
character, then greedily all non-newline characters) at a line start.
On success returns the matched text and the unconsumed remainder. -/
def matchNumbered (l : List Char) : Option (List Char × List Char) :=
  match l.takeWhile isDigitC, l.dropWhile isDigitC with
  | d :: ds, '.' :: c :: r =>
    if isSpaceC c then
      some ((d :: ds) ++ '.' :: c :: r.takeWhile (fun x => x ≠ '\n'),
            r.dropWhile (fun x => x ≠ '\n'))
    else none
  | _, _ => none

/-- Fueled scanner implementing re.findall of the multiline pattern: the
scan starts at a line start, records a match when the pattern fires there,
and resumes after the next newline.  One unit of fuel per character is
enough because every step consumes at least one character. -/
def findAllFuel : Nat → List Char → List (List Char)
  | 0, _ => []
  | _ + 1, [] => []
  | fuel + 1, c :: cs =>
    match matchNumbered (c :: cs) with
    | some (m, rest) => m :: findAllFuel fuel (skipLine rest)
    | none => findAllFuel fuel (skipLine (c :: cs))

/-- All matches of the multiline pattern in the input. -/
def findAll (l : List Char) : List (List Char) :=
  findAllFuel l.length l

/-- re.sub of the anchored pattern (digits, dot, one whitespace character)
with the empty string: without the multiline flag the anchor only fires at
position zero, so at most the leading tag is removed. -/
def stripLeadingNumber (l : List Char) : List Char :=
  match l.takeWhile isDigitC, l.dropWhile isDigitC with
  | _ :: _, '.' :: c :: r => if isSpaceC c then r else l
  | _, _ => l

/-- Python str.strip: remove leading and trailing whitespace. -/
def pyStrip (l : List Char) : List Char :=
  ((l.dropWhile isSpaceC).reverse.dropWhile isSpaceC).reverse

/-- parse_questions from app.py: find every line matching the numbered
pattern, strip the leading numeral and dot from each, and strip
surrounding whitespace. -/
def parse_questions (response_content : String) : List String :=
  (findAll response_content.data).map
    (fun q => String.mk (pyStrip (stripLeadingNumber q)))

/-- The suffixes of the input that begin right after a newline. -/
def tailsAfterNL : List Char → List (List Char)
  | [] => []
  | c :: cs => if c = '\n' then cs :: tailsAfterNL cs else tailsAfterNL cs

/-- The suffixes of the input at which the multiline anchor can fire: the
whole input and every suffix beginning right after a newline. -/
def lineStarts (l : List Char) : List (List Char) :=
  l :: tailsAfterNL l

/-! ## Session store and endpoint handlers

The store is the pair of process-wide dictionaries from app.py:
session_data maps a session identifier to its accumulated chunks and
filenames, and user_retrievers maps it to the retriever built by the last
successful index build.  A retriever is modelled by the chunk list the
index was built from. -/

/-- A chunk of extracted document text, the unit of embedding. -/
abbrev Chunk := String

/-- The per-session record stored in session_data: accumulated chunks and
uploaded filenames. -/
structure SessionRec where
  chunks : List Chunk
  filenames : List String
deriving DecidableEq

/-- The process-wide mutable state: both dictionaries keyed by session
identifier. -/
structure AppState where
  session_data : String → Option SessionRec
  user_retrievers : String → Option (List Chunk)

/-- Dictionary update at one key. -/
def upd {α : Type} (m : String → Option α) (k : String) (v : Option α) :
    String → Option α :=
  fun x => if x = k then v else m x

/-- The state at process start: both dictionaries empty. -/
def initState : AppState :=
  ⟨fun _ => none, fun _ => none⟩

/-- One upload request together with the observable outcomes of the
external collaborators the handler consults: whether the multipart field
is present, the raw client filename, the sanitised name produced by the
excluded web layer, the outcome of saving plus PDF loading plus splitting
(none when any of them raises), and whether the embedding build
succeeds. -/
structure UploadReq where
  hasFilePart : Bool
  filename : String
  secureName : String
  loadResult : Option (List Chunk)
  embedOk : Bool
deriving DecidableEq

/-- The observable responses of the upload handler, in source order:
the 3-file limit rejection, the missing file part rejection, the
empty-or-non-PDF filename rejection, the catch-all processing failure,
and success carrying the session's filename list. -/
inductive UploadResp where
  | limitExceeded
  | noFilePart
  | invalidFile
  | processingFailed
  | success (files : List String)
deriving DecidableEq

/-- Python str.endswith, over the character lists of the strings. -/
def pyEndsWith (s suffix : String) : Bool :=
  suffix.data.isSuffixOf s.data

/-- The handler's first statement: create the session's empty record when
the identifier is not yet in session_data. -/
def ensureSession (st : AppState) (sid : String) : AppState :=
  match st.session_data sid with
  | some _ => st
  | none => ⟨upd st.session_data sid (some ⟨[], []⟩), st.user_retrievers⟩

/-- upload_file from app.py: ensure the record exists, enforce the 3-file
limit, validate the request, then append the new chunks and filename and
rebuild the index from the full accumulated chunk list; a failure after
the append leaves the appended data in place and the previous retriever
untouched. -/
def upload_file (sid : String) (req : UploadReq) (st : AppState) :
    UploadResp × AppState :=
  let st0 := ensureSession st sid
  let sess := (st0.session_data sid).getD ⟨[], []⟩
  if 3 ≤ sess.filenames.length then (.limitExceeded, st0)
  else if req.hasFilePart = false then (.noFilePart, st0)
  else if req.filename = "" ∨ pyEndsWith req.filename ".pdf" = false then
    (.invalidFile, st0)
  else
    match req.loadResult with
    | none => (.processingFailed, st0)
    | some newChunks =>
      let sess1 : SessionRec :=
        ⟨sess.chunks ++ newChunks, sess.filenames ++ [req.secureName]⟩
      let st1 : AppState :=
        ⟨upd st0.session_data sid (some sess1), st0.user_retrievers⟩
      if req.embedOk then
        (.success sess1.filenames,
         ⟨st1.session_data, upd st1.user_retrievers sid (some sess1.chunks)⟩)
      else (.processingFailed, st1)

/-- Whether an upload response is the success case. -/
def isSuccessResp : UploadResp → Bool
  | .success _ => true
  | _ => false

/-- One ask request with the outcomes of the collaborators: the question
field of the request body (none when absent), the outcome of the
retrieval-augmented answer chain, and the outcome of the follow-up
completion call (none when the call raises). -/
structure AskEnv where
  question : Option String
  qaResult : Option String
  followUp : Option String

/-- The observable responses of the ask handler: no index yet, missing or
empty question, a failure inside the answer pipeline, or an answer with
parsed follow-up suggestions. -/
inductive AskResp where
  | noDocs
  | noQuestion
  | qaError
  | answered (answer : String) (suggestions : List String)
deriving DecidableEq

/-- Result of the ask handler: the response, the state afterwards, and
whether the completion provider and the retriever were consulted. -/
structure AskOut where
  resp : AskResp
  state : AppState
  llmInvoked : Bool
  retrieverInvoked : Bool

/-- ask_question from app.py: reject when the session has no retriever,
then when the question is missing or empty, and only then run the
retrieval chain and the follow-up generation; no branch writes to either
dictionary. -/
def ask_question (sid : String) (env : AskEnv) (st : AppState) : AskOut :=
  match st.user_retrievers sid with
  | none => ⟨.noDocs, st, false, false⟩
  | some _ =>
    match env.question with
    | none => ⟨.noQuestion, st, false, false⟩
    | some q =>
      if q = "" then ⟨.noQuestion, st, false, false⟩
      else
        match env.qaResult with
        | none => ⟨.qaError, st, true, true⟩
        | some answer =>
          match env.followUp with
          | none => ⟨.qaError, st, true, true⟩
          | some content =>
            ⟨.answered answer (parse_questions content), st, true, true⟩

/-- The single response of the clear handler. -/
inductive ClearResp where
  | success
deriving DecidableEq

/-- clear_session from app.py: pop the session from both dictionaries and
report success unconditionally. -/
def clear_session (sid : String) (st : AppState) : ClearResp × AppState :=
  (.success,
   ⟨upd st.session_data sid none, upd st.user_retrievers sid none⟩)

/-- One request to the service. -/
inductive Op where
  | upload (sid : String) (req : UploadReq)
  | question (sid : String) (env : AskEnv)
  | clear (sid : String)

/-- The state transition of one request. -/
def applyOp (st : AppState) : Op → AppState
  | .upload sid req => (upload_file sid req st).2
  | .question sid env => (ask_question sid env st).state
  | .clear sid => (clear_session sid st).2

/-- Run a sequence of requests from a state. -/
def runOps (st : AppState) : List Op → AppState
  | [] => st
  | op :: ops => runOps (applyOp st op) ops

/-- A state is reachable when some request sequence from process start
produces it. -/
def Reachable (st : AppState) : Prop :=
  ∃ ops, st = runOps initState ops

/-- Every stored session record holds at most three filenames. -/
def FileLimitInv (st : AppState) : Prop :=
  ∀ sid sess, st.session_data sid = some sess → sess.filenames.length ≤ 3

/-- Every stored retriever was built from some earlier snapshot of its
session's chunk list: the indexed chunks are an initial segment of the
accumulated chunks. -/
def IndexPrefixInv (st : AppState) : Prop :=
  ∀ sid idx, st.user_retrievers sid = some idx →
    ∃ sess, st.session_data sid = some sess ∧ ∃ t, sess.chunks = idx ++ t

/-- The record the upload handler works on: the stored one, or the empty
record the handler just created. -/
def sessionOf (st : AppState) (sid : String) : SessionRec :=
  (st.session_data sid).getD ⟨[], []⟩

/-- Whether an upload response is one of the client-input rejections: the
limit rejection, the missing file part, or the invalid filename. -/
def isClientErrorB : UploadResp → Bool
  | .limitExceeded => true
  | .noFilePart => true
  | .invalidFile => true
  | _ => false

/-! Concrete inputs used by the witnesses and counterexamples. -/

/-- A well-formed upload whose processing and index build succeed. -/
def reqA : UploadReq := ⟨true, "a.pdf", "a.pdf", some ["ca"], true⟩

/-- A well-formed upload whose index build fails after the chunks and the
filename have been appended. -/
def reqB : UploadReq := ⟨true, "b.pdf", "b.pdf", some ["cb"], false⟩

/-- An upload request with no file part. -/
def reqNoFile : UploadReq := ⟨false, "", "", none, false⟩

/-- An upload request carrying a non-PDF filename. -/
def reqBadType : UploadReq := ⟨true, "a.txt", "a.txt", none, false⟩

/-- One successful upload for session s. -/
def opsOne : List Op := [Op.upload "s" reqA]

/-- A successful upload followed by one whose index build fails. -/
def opsC2 : List Op := [Op.upload "s" reqA, Op.upload "s" reqB]

/-- The record held by session s after opsOne. -/
def sessW : SessionRec := ⟨["ca"], ["a.pdf"]⟩

/-- A record already holding three filenames. -/
def sessFull : SessionRec := ⟨["c1", "c2", "c3"], ["a.pdf", "b.pdf", "c.pdf"]⟩

/-- A state whose session s already holds three filenames. -/
def stFull : AppState :=
  ⟨upd (fun _ => none) "s" (some sessFull), fun _ => none⟩

/-- The state after one successful upload for session s. -/
def stOne : AppState := (upload_file "s" reqA initState).2

/-- An ask request whose question field is the empty string. -/
def envBlank : AskEnv := ⟨some "", some "ans", some "1. A?"⟩

/-- An ask request with a well-formed question. -/
def envQ : AskEnv := ⟨some "q", some "ans", some "1. A?"⟩

/-! ## Lemmas about the parser scanner -/

/-- Skipping to the next line never lengthens the input. -/
theorem skipLine_length_le (l : List Char) :
    (skipLine l).length ≤ l.length := by
  induction l with
  | nil => simp [skipLine]
  | cons c cs ih =>
    simp only [skipLine]
    split
    · simp
    · exact le_trans ih (Nat.le_succ _)

/-- Skipping past the first character's line drops at least one
character. -/
theorem skipLine_cons_length (c : Char) (cs : List Char) :
    (skipLine (c :: cs)).length ≤ cs.length := by
  simp only [skipLine]
  split
  · exact le_refl _
  · exact skipLine_length_le cs

/-- A successful pattern match splits the input into the nonempty matched
text and the remainder. -/
theorem matchNumbered_some (l m rest : List Char)
    (h : matchNumbered l = some (m, rest)) :
    l = m ++ rest ∧ 1 ≤ m.length := by
  unfold matchNumbered at h
  split at h
  next d ds c r htake hdrop =>
    split at h
    · simp only [Option.some.injEq, Prod.mk.injEq] at h
      obtain ⟨hm, hrest⟩ := h
      constructor
      · rw [← hm, ← hrest]
        conv_lhs => rw [← List.takeWhile_append_dropWhile (p := isDigitC) (l := l)]
        rw [htake, hdrop]
        simp [List.append_assoc, List.takeWhile_append_dropWhile]
      · rw [← hm]; simp
    · exact absurd h (by simp)
  next => exact absurd h (by simp)

/-- The remainder after a successful match is empty or starts with a
newline. -/
theorem matchNumbered_rest (l m rest : List Char)
    (h : matchNumbered l = some (m, rest)) :
    rest = [] ∨ ∃ rs, rest = '\n' :: rs := by
  unfold matchNumbered at h
  split at h
  next d ds c r htake hdrop =>
    split at h
    · simp only [Option.some.injEq, Prod.mk.injEq] at h
      obtain ⟨hm, hrest⟩ := h
      rw [← hrest]
      clear hrest hm htake hdrop
      induction r with
      | nil => left; rfl
      | cons x xs ih =>
        by_cases hx : x = '\n'
        · right
          exact ⟨xs, by simp [List.dropWhile_cons, hx]⟩
        · simpa [List.dropWhile_cons, hx] using ih
    · exact absurd h (by simp)
  next => exact absurd h (by simp)

/-- The pattern never matches the empty input. -/
theorem matchNumbered_nil : matchNumbered [] = none := rfl

/-- The scanner ignores extra fuel beyond one unit per character. -/
theorem findAllFuel_congr :
    ∀ (fuel fuel2 : Nat) (l : List Char), l.length ≤ fuel →
      l.length ≤ fuel2 → findAllFuel fuel l = findAllFuel fuel2 l := by
  intro fuel
  induction fuel with
  | zero =>
    intro fuel2 l h1 _
    have hl : l = [] := List.eq_nil_of_length_eq_zero (Nat.le_zero.mp h1)
    subst hl
    cases fuel2 <;> rfl
  | succ f ih =>
    intro fuel2 l h1 h2
    cases l with
    | nil => cases fuel2 <;> rfl
    | cons c cs =>
      cases fuel2 with
      | zero => exact absurd h2 (by simp)
      | succ f2 =>
        cases hm : matchNumbered (c :: cs) with
        | none =>
          simp only [findAllFuel, hm]
          apply ih
          · exact le_trans (skipLine_cons_length c cs)
              (by simpa using Nat.le_of_succ_le_succ h1)
          · exact le_trans (skipLine_cons_length c cs)
              (by simpa using Nat.le_of_succ_le_succ h2)
        | some p =>
          obtain ⟨m, rest⟩ := p
          obtain ⟨hsplit, hlen⟩ := matchNumbered_some _ _ _ hm
          have hr : rest.length ≤ cs.length := by
            have hlcong := congrArg List.length hsplit
            simp only [List.length_cons, List.length_append] at hlcong
            omega
          simp only [findAllFuel, hm]
          congr 1
          apply ih
          · exact le_trans (skipLine_length_le rest)
              (le_trans hr (by simpa using Nat.le_of_succ_le_succ h1))
          · exact le_trans (skipLine_length_le rest)
              (le_trans hr (by simpa using Nat.le_of_succ_le_succ h2))

/-- Unfolding equation of the scanner at a match. -/
theorem findAll_cons_some (c : Char) (cs m rest : List Char)
    (h : matchNumbered (c :: cs) = some (m, rest)) :
    findAll (c :: cs) = m :: findAll (skipLine rest) := by
  obtain ⟨hsplit, hlen⟩ := matchNumbered_some _ _ _ h
  have hr : rest.length ≤ cs.length := by
    have hlcong := congrArg List.length hsplit
    simp only [List.length_cons, List.length_append] at hlcong
    omega
  unfold findAll
  simp only [List.length_cons, findAllFuel, h]
  congr 1
  exact findAllFuel_congr cs.length (skipLine rest).length (skipLine rest)
    (le_trans (skipLine_length_le rest) hr) (le_refl _)

/-- Unfolding equation of the scanner at a non-match. -/
theorem findAll_cons_none (c : Char) (cs : List Char)
    (h : matchNumbered (c :: cs) = none) :
    findAll (c :: cs) = findAll (skipLine (c :: cs)) := by
  unfold findAll
  simp only [List.length_cons, findAllFuel, h]
  exact findAllFuel_congr cs.length (skipLine (c :: cs)).length
    (skipLine (c :: cs)) (skipLine_cons_length c cs) (le_refl _)

/-- Every line start of the skipped input is a line start after a newline
of the original input, or the empty suffix. -/
theorem lineStarts_skipLine (l : List Char) :
    ∀ t ∈ lineStarts (skipLine l), t ∈ tailsAfterNL l ∨ t = [] := by
  induction l with
  | nil =>
    intro t ht
    right
    simpa [skipLine, lineStarts, tailsAfterNL] using ht
  | cons c cs ih =>
    intro t ht
    by_cases hc : c = '\n'
    · left
      simp only [skipLine, if_pos hc] at ht
      simpa [tailsAfterNL, hc, lineStarts] using ht
    · simp only [skipLine, if_neg hc] at ht
      rcases ih t ht with h | h
      · left; simpa [tailsAfterNL, hc] using h
      · right; exact h

/-- When the pattern matches at no line start, the scanner finds
nothing. -/
theorem findAll_eq_nil :
    ∀ (n : Nat) (l : List Char), l.length ≤ n →
      (∀ t ∈ lineStarts l, matchNumbered t = none) → findAll l = [] := by
  intro n
  induction n with
  | zero =>
    intro l h1 _
    have hl : l = [] := List.eq_nil_of_length_eq_zero (Nat.le_zero.mp h1)
    subst hl
    rfl
  | succ f ih =>
    intro l h1 hall
    cases l with
    | nil => rfl
    | cons c cs =>
      have hm : matchNumbered (c :: cs) = none :=
        hall _ (by simp [lineStarts])
      rw [findAll_cons_none c cs hm]
      apply ih
      · exact le_trans (skipLine_cons_length c cs)
          (by simpa using Nat.le_of_succ_le_succ h1)
      · intro t ht
        rcases lineStarts_skipLine (c :: cs) t ht with h | h
        · exact hall t (by simp only [lineStarts, List.mem_cons]; right; exact h)
        · subst h; rfl

/-- Skipping a line does not increase the newline count. -/
theorem count_skipLine_le (l : List Char) :
    (skipLine l).count '\n' ≤ l.count '\n' := by
  induction l with
  | nil => simp [skipLine]
  | cons c cs ih =>
    simp only [skipLine]
    split
    · simp [List.count_cons]
    · refine le_trans ih ?_
      simp [List.count_cons]

/-- The scanner finds at most one match per line of the input. -/
theorem findAll_length_le :
    ∀ (n : Nat) (l : List Char), l.length ≤ n →
      (findAll l).length ≤ l.count '\n' + 1 := by
  intro n
  induction n with
  | zero =>
    intro l h1
    have hl : l = [] := List.eq_nil_of_length_eq_zero (Nat.le_zero.mp h1)
    subst hl
    simp [findAll, findAllFuel]
  | succ f ih =>
    intro l h1
    cases l with
    | nil => simp [findAll, findAllFuel]
    | cons c cs =>
      simp only [List.length_cons] at h1
      cases hm : matchNumbered (c :: cs) with
      | none =>
        rw [findAll_cons_none c cs hm]
        refine le_trans (ih _ (le_trans (skipLine_cons_length c cs)
          (by simpa using Nat.le_of_succ_le_succ h1))) ?_
        have := count_skipLine_le (c :: cs)
        omega
      | some p =>
        obtain ⟨m, rest⟩ := p
        rw [findAll_cons_some c cs m rest hm]
        simp only [List.length_cons]
        obtain ⟨hsplit, hlen⟩ := matchNumbered_some _ _ _ hm
        rcases matchNumbered_rest _ _ _ hm with hr | ⟨rs, hr⟩
        · subst hr
          have : findAll (skipLine []) = [] := rfl
          rw [this]
          simp
        · subst hr
          have hskip : skipLine ('\n' :: rs) = rs := by simp [skipLine]
          rw [hskip]
          have hrs : rs.length ≤ f := by
            have hlcong := congrArg List.length hsplit
            simp only [List.length_cons, List.length_append] at hlcong
            omega
          have hccong : (c :: cs).count '\n' = m.count '\n' + ('\n' :: rs).count '\n' := by
            rw [hsplit, List.count_append]
          have hcnil : ('\n' :: rs).count '\n' = rs.count '\n' + 1 := by
            simp [List.count_cons]
          have := ih rs hrs
          omega

/-- A single prose line without a newline is skipped whole. -/
theorem skipLine_prose (p s : List Char) (hp : '\n' ∉ p) :
    skipLine (p ++ '\n' :: s) = s := by
  induction p with
  | nil => simp [skipLine]
  | cons c cs ih =>
    have hc : ¬ c = '\n' := fun h => hp (by simp [h])
    simp only [List.cons_append, skipLine, if_neg hc]
    exact ih (fun h => hp (List.mem_cons_of_mem _ h))

/-- Prepending a non-matching prose line leaves the matches unchanged. -/
theorem findAll_prose (p s : List Char) (hp : '\n' ∉ p)
    (hm : matchNumbered (p ++ '\n' :: s) = none) :
    findAll (p ++ '\n' :: s) = findAll s := by
  have hsk : skipLine (p ++ '\n' :: s) = s := skipLine_prose p s hp
  cases hpp : p ++ '\n' :: s with
  | nil => exact absurd hpp (by simp)
  | cons c cs =>
    rw [findAll_cons_none c cs (hpp ▸ hm)]
    rw [hpp] at hsk
    rw [hsk]

/-! ## Lemmas about the store and the handlers -/

/-- The ask handler mutates no state in any branch. -/
theorem ask_state_id (sid : String) (env : AskEnv) (st : AppState) :
    (ask_question sid env st).state = st := by
  unfold ask_question
  cases st.user_retrievers sid with
  | none => rfl
  | some r =>
    cases env.question with
    | none => rfl
    | some q =>
      by_cases hq : q = ""
      · simp [hq]
      · simp only [if_neg hq]
        cases env.qaResult with
        | none => rfl
        | some a =>
          cases env.followUp with
          | none => rfl
          | some content => rfl

/-- ask on a missing or empty question rejects before touching any
provider. -/
theorem ask_blank_eq (sid : String) (env : AskEnv) (st : AppState)
    (r : List Chunk) (h : st.user_retrievers sid = some r)
    (hq : env.question = none ∨ env.question = some "") :
    ask_question sid env st = ⟨AskResp.noQuestion, st, false, false⟩ := by
  unfold ask_question
  rw [h]
  rcases hq with hq | hq <;> simp [hq]

/-- When the session is already recorded, the first statement of the
upload handler changes nothing. -/
theorem ensureSession_some (st : AppState) (sid : String) (sess : SessionRec)
    (h : st.session_data sid = some sess) : ensureSession st sid = st := by
  unfold ensureSession
  rw [h]

/-- The first statement of the upload handler never touches the
retriever map. -/
theorem ensureSession_ur (st : AppState) (sid : String) :
    (ensureSession st sid).user_retrievers = st.user_retrievers := by
  unfold ensureSession
  cases st.session_data sid <;> rfl

/-- When the session is new, the first statement of the upload handler
adds exactly the empty record. -/
theorem ensureSession_none (st : AppState) (sid : String)
    (h : st.session_data sid = none) :
    ensureSession st sid =
      ⟨upd st.session_data sid (some ⟨[], []⟩), st.user_retrievers⟩ := by
  unfold ensureSession
  rw [h]

/-- Branch equation: the limit rejection. -/
theorem upload_eq_limit (st : AppState) (sid : String) (req : UploadReq)
    (h3 : 3 ≤ (sessionOf (ensureSession st sid) sid).filenames.length) :
    upload_file sid req st = (UploadResp.limitExceeded, ensureSession st sid) := by
  simp only [upload_file, sessionOf] at *
  rw [if_pos h3]

/-- Branch equation: the missing-file-part rejection. -/
theorem upload_eq_noFilePart (st : AppState) (sid : String) (req : UploadReq)
    (h3 : ¬ 3 ≤ (sessionOf (ensureSession st sid) sid).filenames.length)
    (hfp : req.hasFilePart = false) :
    upload_file sid req st = (UploadResp.noFilePart, ensureSession st sid) := by
  simp only [upload_file, sessionOf] at *
  rw [if_neg h3, if_pos hfp]

/-- Branch equation: the invalid-filename rejection. -/
theorem upload_eq_invalid (st : AppState) (sid : String) (req : UploadReq)
    (h3 : ¬ 3 ≤ (sessionOf (ensureSession st sid) sid).filenames.length)
    (hfp : ¬ req.hasFilePart = false)
    (hfn : req.filename = "" ∨ pyEndsWith req.filename ".pdf" = false) :
    upload_file sid req st = (UploadResp.invalidFile, ensureSession st sid) := by
  simp only [upload_file, sessionOf] at *
  rw [if_neg h3, if_neg hfp, if_pos hfn]

/-- Branch equation: failure while saving, loading or splitting, before
any append. -/
theorem upload_eq_loadFail (st : AppState) (sid : String) (req : UploadReq)
    (h3 : ¬ 3 ≤ (sessionOf (ensureSession st sid) sid).filenames.length)
    (hfp : ¬ req.hasFilePart = false)
    (hfn : ¬ (req.filename = "" ∨ pyEndsWith req.filename ".pdf" = false))
    (hlr : req.loadResult = none) :
    upload_file sid req st = (UploadResp.processingFailed, ensureSession st sid) := by
  simp only [upload_file, sessionOf] at *
  rw [if_neg h3, if_neg hfp, if_neg hfn]
  simp only [hlr]

/-- Branch equation: the fully successful upload appends the chunks and
the sanitised filename and installs the index built from the full new
chunk list. -/
theorem upload_eq_success (st : AppState) (sid : String) (req : UploadReq)
    (newChunks : List Chunk)
    (h3 : ¬ 3 ≤ (sessionOf (ensureSession st sid) sid).filenames.length)
    (hfp : ¬ req.hasFilePart = false)
    (hfn : ¬ (req.filename = "" ∨ pyEndsWith req.filename ".pdf" = false))
    (hlr : req.loadResult = some newChunks)
    (hek : req.embedOk = true) :
    upload_file sid req st =
      (UploadResp.success
         ((sessionOf (ensureSession st sid) sid).filenames ++ [req.secureName]),
       ⟨upd (ensureSession st sid).session_data sid
          (some ⟨(sessionOf (ensureSession st sid) sid).chunks ++ newChunks,
                 (sessionOf (ensureSession st sid) sid).filenames ++ [req.secureName]⟩),
        upd (ensureSession st sid).user_retrievers sid
          (some ((sessionOf (ensureSession st sid) sid).chunks ++ newChunks))⟩) := by
  simp only [upload_file, sessionOf] at *
  rw [if_neg h3, if_neg hfp, if_neg hfn]
  simp only [hlr, hek, if_true]

/-- Branch equation: the index build fails after the append, so the
chunks and the filename stay appended while the retriever map keeps its
previous entry. -/
theorem upload_eq_embedFail (st : AppState) (sid : String) (req : UploadReq)
    (newChunks : List Chunk)
    (h3 : ¬ 3 ≤ (sessionOf (ensureSession st sid) sid).filenames.length)
    (hfp : ¬ req.hasFilePart = false)
    (hfn : ¬ (req.filename = "" ∨ pyEndsWith req.filename ".pdf" = false))
    (hlr : req.loadResult = some newChunks)
    (hek : req.embedOk = false) :
    upload_file sid req st =
      (UploadResp.processingFailed,
       ⟨upd (ensureSession st sid).session_data sid
          (some ⟨(sessionOf (ensureSession st sid) sid).chunks ++ newChunks,
                 (sessionOf (ensureSession st sid) sid).filenames ++ [req.secureName]⟩),
        (ensureSession st sid).user_retrievers⟩) := by
  simp only [upload_file, sessionOf] at *
  rw [if_neg h3, if_neg hfp, if_neg hfn]
  simp only [hlr, hek, if_neg (by simp : ¬ (false = true))]

/-- Uploading into a session that already holds three or more filenames
is rejected by the limit check with the state unchanged. -/
theorem upload_limit (st : AppState) (sid : String) (sess : SessionRec)
    (req : UploadReq) (h : st.session_data sid = some sess)
    (h3 : 3 ≤ sess.filenames.length) :
    upload_file sid req st = (UploadResp.limitExceeded, st) := by
  unfold upload_file
  rw [ensureSession_some st sid sess h]
  simp only [h, Option.getD_some]
  rw [if_pos h3]

/-- The record-creation step preserves the filename bound. -/
theorem ensureSession_limitInv (st : AppState) (sid : String)
    (h : FileLimitInv st) : FileLimitInv (ensureSession st sid) := by
  unfold ensureSession
  cases hsd : st.session_data sid with
  | some s => exact h
  | none =>
    intro k sk hk
    simp only [upd] at hk
    by_cases hks : k = sid
    · rw [if_pos hks] at hk
      cases hk
      simp
    · rw [if_neg hks] at hk
      exact h k sk hk

/-- The record-creation step preserves the index-snapshot invariant. -/
theorem ensureSession_prefixInv (st : AppState) (sid : String)
    (h : IndexPrefixInv st) : IndexPrefixInv (ensureSession st sid) := by
  unfold ensureSession
  cases hsd : st.session_data sid with
  | some s => exact h
  | none =>
    intro k idx hk
    obtain ⟨sess, hs, t, ht⟩ := h k idx hk
    refine ⟨sess, ?_, t, ht⟩
    by_cases hks : k = sid
    · subst hks
      rw [hs] at hsd
      cases hsd
    · simpa [upd, hks] using hs

/-- The upload handler preserves the filename bound in every branch. -/
theorem upload_limitInv (sid : String) (req : UploadReq) (st : AppState)
    (h : FileLimitInv st) : FileLimitInv (upload_file sid req st).2 := by
  have h0 : FileLimitInv (ensureSession st sid) := ensureSession_limitInv st sid h
  simp only [upload_file]
  split
  · exact h0
  · next h3 =>
    split
    · exact h0
    · split
      · exact h0
      · split
        · exact h0
        · next newChunks heq =>
          split
          · intro k sk hk
            simp only [upd] at hk
            by_cases hks : k = sid
            · rw [if_pos hks] at hk
              cases hk
              simp only [List.length_append, List.length_cons, List.length_nil]
              omega
            · rw [if_neg hks] at hk
              exact h0 k sk hk
          · intro k sk hk
            simp only [upd] at hk
            by_cases hks : k = sid
            · rw [if_pos hks] at hk
              cases hk
              simp only [List.length_append, List.length_cons, List.length_nil]
              omega
            · rw [if_neg hks] at hk
              exact h0 k sk hk

/-- The upload handler preserves the index-snapshot invariant in every
branch: an error before the append changes nothing, a failed build keeps
the old retriever while only extending the chunks, and a successful build
installs the full new chunk list. -/
theorem upload_prefixInv (sid : String) (req : UploadReq) (st : AppState)
    (h : IndexPrefixInv st) : IndexPrefixInv (upload_file sid req st).2 := by
  have h0 : IndexPrefixInv (ensureSession st sid) := ensureSession_prefixInv st sid h
  simp only [upload_file]
  split
  · exact h0
  · split
    · exact h0
    · split
      · exact h0
      · split
        · exact h0
        · next newChunks heq =>
          split
          · intro k idx hk
            simp only [upd] at hk
            by_cases hks : k = sid
            · rw [if_pos hks] at hk
              cases hk
              refine ⟨⟨(((ensureSession st sid).session_data sid).getD
                          ⟨[], []⟩).chunks ++ newChunks,
                       (((ensureSession st sid).session_data sid).getD
                          ⟨[], []⟩).filenames ++ [req.secureName]⟩, ?_, [], ?_⟩
              · simp [upd, hks]
              · simp
            · rw [if_neg hks] at hk
              obtain ⟨sess, hs, t, ht⟩ := h0 k idx hk
              exact ⟨sess, by simp [upd, hks, hs], t, ht⟩
          · intro k idx hk
            obtain ⟨sess, hs, t, ht⟩ := h0 k idx hk
            by_cases hks : k = sid
            · subst hks
              refine ⟨⟨sess.chunks ++ newChunks,
                       sess.filenames ++ [req.secureName]⟩, ?_, t ++ newChunks, ?_⟩
              · simp [upd, hs]
              · simp [ht, List.append_assoc]
            · exact ⟨sess, by simp [upd, hks, hs], t, ht⟩

/-- The clear handler preserves the filename bound. -/
theorem clear_limitInv (sid : String) (st : AppState)
    (h : FileLimitInv st) : FileLimitInv (clear_session sid st).2 := by
  intro k sk hk
  simp only [clear_session, upd] at hk
  by_cases hks : k = sid
  · rw [if_pos hks] at hk
    cases hk
  · rw [if_neg hks] at hk
    exact h k sk hk

/-- The clear handler preserves the index-snapshot invariant. -/
theorem clear_prefixInv (sid : String) (st : AppState)
    (h : IndexPrefixInv st) : IndexPrefixInv (clear_session sid st).2 := by
  intro k idx hk
  simp only [clear_session, upd] at hk
  by_cases hks : k = sid
  · rw [if_pos hks] at hk
    cases hk
  · rw [if_neg hks] at hk
    obtain ⟨sess, hs, t, ht⟩ := h k idx hk
    exact ⟨sess, by simp [clear_session, upd, hks, hs], t, ht⟩

/-- One request preserves both store invariants. -/
theorem applyOp_inv (st : AppState) (op : Op)
    (h : FileLimitInv st ∧ IndexPrefixInv st) :
    FileLimitInv (applyOp st op) ∧ IndexPrefixInv (applyOp st op) := by
  cases op with
  | upload sid req =>
    exact ⟨upload_limitInv sid req st h.1, upload_prefixInv sid req st h.2⟩
  | question sid env =>
    simp only [applyOp, ask_state_id]
    exact h
  | clear sid =>
    exact ⟨clear_limitInv sid st h.1, clear_prefixInv sid st h.2⟩

/-- Both store invariants are stable under any request sequence. -/
theorem runOps_inv :
    ∀ (ops : List Op) (st : AppState),
      FileLimitInv st ∧ IndexPrefixInv st →
      FileLimitInv (runOps st ops) ∧ IndexPrefixInv (runOps st ops) := by
  intro ops
  induction ops with
  | nil => intro st h; exact h
  | cons op ops ih =>
    intro st h
    exact ih _ (applyOp_inv st op h)

/-- Both store invariants hold at process start. -/
theorem initState_inv : FileLimitInv initState ∧ IndexPrefixInv initState := by
  constructor
  · intro k sk hk
    simp [initState] at hk
  · intro k idx hk
    simp [initState] at hk

/-- Updating a key twice keeps only the second value. -/
theorem upd_upd_same {α : Type} (m : String → Option α) (k : String)
    (v w : Option α) : upd (upd m k v) k w = upd m k w := by
  funext x
  by_cases hx : x = k <;> simp [upd, hx]

/-- Removing an absent key changes nothing. -/
theorem upd_self_none {α : Type} (m : String → Option α) (k : String)
    (h : m k = none) : upd m k none = m := by
  funext x
  by_cases hx : x = k <;> simp [upd, hx, h]

/-! ## The claims -/

/-- Claim C1: for every session and every request sequence, the session's
stored filename list has length at most 3, and an upload attempted when
the session already holds 3 filenames yields the upload-limit rejection
with the state, hence the session's chunks, filenames, and index,
unchanged. -/
theorem upload_limit_enforced :
    (∀ ops sid sess,
        (runOps initState ops).session_data sid = some sess →
        sess.filenames.length ≤ 3) ∧
    (∀ st sid sess req, st.session_data sid = some sess →
        sess.filenames.length = 3 →
        upload_file sid req st = (UploadResp.limitExceeded, st)) := by
  constructor
  · intro ops sid sess hs
    exact (runOps_inv ops initState initState_inv).1 sid sess hs
  · intro st sid sess req hs h3
    exact upload_limit st sid sess req hs (by omega)

/-- Witness for C1 at a concrete reachable record and a concrete full
session. -/
theorem upload_limit_enforced_witness :
    sessW.filenames.length ≤ 3 ∧
    upload_file "s" reqNoFile stFull = (UploadResp.limitExceeded, stFull) :=
  ⟨upload_limit_enforced.1 opsOne "s" sessW (by decide),
   upload_limit_enforced.2 stFull "s" sessFull reqNoFile (by decide) (by decide)⟩

/-- Claim C10: the 3-file-limit check precedes all file validation: a
session already holding 3 filenames gets the upload-limit rejection for
every request, including one with no file part, an empty filename, or a
non-PDF filename. -/
theorem limit_check_precedes_validation (st : AppState) (sid : String)
    (sess : SessionRec) (req : UploadReq)
    (h : st.session_data sid = some sess)
    (h3 : sess.filenames.length = 3) :
    (upload_file sid req st).1 = UploadResp.limitExceeded := by
  rw [upload_limit st sid sess req h (by omega)]

/-- Witness for C10: a full session rejects a non-PDF upload with the
limit error, not the file-type error. -/
theorem limit_check_precedes_validation_witness :
    (upload_file "s" reqBadType stFull).1 = UploadResp.limitExceeded :=
  limit_check_precedes_validation stFull "s" sessFull reqBadType
    (by decide) (by decide)

/-- Claim C3: ask on a session with no built index always yields the
no-documents rejection and consults neither the completion provider nor
the retriever. -/
theorem ask_without_index_fails (sid : String) (env : AskEnv)
    (st : AppState) (h : st.user_retrievers sid = none) :
    ask_question sid env st = ⟨AskResp.noDocs, st, false, false⟩ := by
  unfold ask_question
  rw [h]

/-- Witness for C3 at the start state. -/
theorem ask_without_index_fails_witness :
    ask_question "s" envQ initState = ⟨AskResp.noDocs, initState, false, false⟩ :=
  ask_without_index_fails "s" envQ initState rfl

/-- Claim C6: ask on a session with a built index but a missing or empty
question yields the empty-question rejection without consulting the
completion provider. -/
theorem ask_blank_question_fails (sid : String) (env : AskEnv)
    (st : AppState) (r : List Chunk)
    (h : st.user_retrievers sid = some r)
    (hq : env.question = none ∨ env.question = some "") :
    ask_question sid env st = ⟨AskResp.noQuestion, st, false, false⟩ :=
  ask_blank_eq sid env st r h hq

/-- Witness for C6 at the state after one successful upload. -/
theorem ask_blank_question_fails_witness :
    ask_question "s" envBlank stOne = ⟨AskResp.noQuestion, stOne, false, false⟩ :=
  ask_blank_question_fails "s" envBlank stOne ["ca"] (by decide) (Or.inr rfl)

/-- Claim C9: ask never mutates the session store: the state, hence every
session's chunks, filenames, and index, is identical before and after any
ask call, whether it succeeds or fails. -/
theorem ask_preserves_state (sid : String) (env : AskEnv) (st : AppState) :
    (ask_question sid env st).state = st :=
  ask_state_id sid env st

/-- Claim C8: clear_session always succeeds, is idempotent in state and
result, and on a never-seen session identifier leaves the state
unchanged. -/
theorem clear_session_spec :
    (∀ sid st, (clear_session sid st).1 = ClearResp.success) ∧
    (∀ sid st, clear_session sid ((clear_session sid st).2) =
      clear_session sid st) ∧
    (∀ sid st, st.session_data sid = none → st.user_retrievers sid = none →
      clear_session sid st = (ClearResp.success, st)) := by
  refine ⟨fun sid st => rfl, ?_, ?_⟩
  · intro sid st
    simp [clear_session, upd_upd_same]
  · intro sid st h1 h2
    simp [clear_session, upd_self_none _ _ h1, upd_self_none _ _ h2]

/-- Witness for C8 at a never-seen identifier in the start state. -/
theorem clear_session_spec_witness :
    clear_session "absent" initState = (ClearResp.success, initState) :=
  clear_session_spec.2.2 "absent" initState rfl rfl

/-- A client-input rejection of an upload leaves exactly the state the
record-creation step produced. -/
theorem upload_client_err_state (st : AppState) (sid : String)
    (req : UploadReq)
    (h : isClientErrorB (upload_file sid req st).1 = true) :
    (upload_file sid req st).2 = ensureSession st sid := by
  by_cases h3 : 3 ≤ (sessionOf (ensureSession st sid) sid).filenames.length
  · rw [upload_eq_limit st sid req h3]
  · by_cases hfp : req.hasFilePart = false
    · rw [upload_eq_noFilePart st sid req h3 hfp]
    · by_cases hfn : req.filename = "" ∨ pyEndsWith req.filename ".pdf" = false
      · rw [upload_eq_invalid st sid req h3 hfp hfn]
      · cases hlr : req.loadResult with
        | none =>
          rw [upload_eq_loadFail st sid req h3 hfp hfn hlr] at h
          simp [isClientErrorB] at h
        | some newChunks =>
          cases hek : req.embedOk with
          | true =>
            rw [upload_eq_success st sid req newChunks h3 hfp hfn hlr hek] at h
            simp [isClientErrorB] at h
          | false =>
            rw [upload_eq_embedFail st sid req newChunks h3 hfp hfn hlr hek] at h
            simp [isClientErrorB] at h

/-- Counterexample to claim C7 as stated: an upload with no file part on a
fresh session is rejected as a client-input error, yet the handler has
already created the session's empty record, so session_data changes. -/
theorem client_error_mutates_cex :
    (upload_file "s" reqNoFile initState).1 = UploadResp.noFilePart ∧
    (upload_file "s" reqNoFile initState).2.session_data "s" ≠
      initState.session_data "s" := by decide

/-- Claim C7 (amended): an upload rejected as a client-input error leaves
the process-wide state unchanged whenever the session is already in
session_data; for a session not yet recorded, the only mutation is the
creation of its empty record; and ask never mutates the state, in
particular when rejected for an empty question. -/
theorem client_errors_state :
    (∀ st sid sess req, st.session_data sid = some sess →
       isClientErrorB (upload_file sid req st).1 = true →
       (upload_file sid req st).2 = st) ∧
    (∀ st sid req, st.session_data sid = none →
       isClientErrorB (upload_file sid req st).1 = true →
       (upload_file sid req st).2 =
         ⟨upd st.session_data sid (some ⟨[], []⟩), st.user_retrievers⟩) ∧
    (∀ sid env st, (ask_question sid env st).state = st) := by
  refine ⟨?_, ?_, ?_⟩
  · intro st sid sess req hs h
    rw [upload_client_err_state st sid req h, ensureSession_some st sid sess hs]
  · intro st sid req hs h
    rw [upload_client_err_state st sid req h, ensureSession_none st sid hs]
  · intro sid env st
    exact ask_state_id sid env st

/-- Witness for C7 (amended) at a recorded session. -/
theorem client_errors_state_witness :
    (upload_file "s" reqNoFile stOne).2 = stOne :=
  client_errors_state.1 stOne "s" sessW reqNoFile (by decide) (by decide)

/-- Counterexample to claim C2 as stated: after a successful upload of
chunk ca and a second upload of chunk cb whose index build fails, session
s holds chunks ca and cb while its index still reflects only ca — an
index over a strict subset of the accumulated chunks is reachable. -/
theorem index_subset_reachable_cex :
    (runOps initState opsC2).user_retrievers "s" = some ["ca"] ∧
    (runOps initState opsC2).session_data "s" =
      some ⟨["ca", "cb"], ["a.pdf", "b.pdf"]⟩ ∧
    (["ca"] : List Chunk) ≠ ["ca", "cb"] := by decide

/-- Claim C2 (amended): in every reachable state an existing index was
built from an initial segment of its session's accumulated chunk list; a
successful upload installs the index built from the full new chunk list;
a failed upload leaves the retriever map, hence any previous index,
unchanged. -/
theorem index_prefix_of_chunks :
    (∀ st, Reachable st → IndexPrefixInv st) ∧
    (∀ st sid req, isSuccessResp (upload_file sid req st).1 = true →
       ∃ sess, (upload_file sid req st).2.session_data sid = some sess ∧
         (upload_file sid req st).2.user_retrievers sid = some sess.chunks) ∧
    (∀ st sid req, (upload_file sid req st).1 = UploadResp.processingFailed →
       (upload_file sid req st).2.user_retrievers = st.user_retrievers) := by
  refine ⟨?_, ?_, ?_⟩
  · rintro st ⟨ops, rfl⟩
    exact (runOps_inv ops initState initState_inv).2
  · intro st sid req h
    by_cases h3 : 3 ≤ (sessionOf (ensureSession st sid) sid).filenames.length
    · rw [upload_eq_limit st sid req h3] at h
      simp [isSuccessResp] at h
    · by_cases hfp : req.hasFilePart = false
      · rw [upload_eq_noFilePart st sid req h3 hfp] at h
        simp [isSuccessResp] at h
      · by_cases hfn : req.filename = "" ∨ pyEndsWith req.filename ".pdf" = false
        · rw [upload_eq_invalid st sid req h3 hfp hfn] at h
          simp [isSuccessResp] at h
        · cases hlr : req.loadResult with
          | none =>
            rw [upload_eq_loadFail st sid req h3 hfp hfn hlr] at h
            simp [isSuccessResp] at h
          | some newChunks =>
            cases hek : req.embedOk with
            | false =>
              rw [upload_eq_embedFail st sid req newChunks h3 hfp hfn hlr hek] at h
              simp [isSuccessResp] at h
            | true =>
              rw [upload_eq_success st sid req newChunks h3 hfp hfn hlr hek]
              refine ⟨⟨(sessionOf (ensureSession st sid) sid).chunks ++ newChunks,
                       (sessionOf (ensureSession st sid) sid).filenames ++
                         [req.secureName]⟩, ?_, ?_⟩
              · simp [upd]
              · simp [upd]
  · intro st sid req h
    by_cases h3 : 3 ≤ (sessionOf (ensureSession st sid) sid).filenames.length
    · rw [upload_eq_limit st sid req h3] at h
      cases h
    · by_cases hfp : req.hasFilePart = false
      · rw [upload_eq_noFilePart st sid req h3 hfp] at h
        cases h
      · by_cases hfn : req.filename = "" ∨ pyEndsWith req.filename ".pdf" = false
        · rw [upload_eq_invalid st sid req h3 hfp hfn] at h
          cases h
        · cases hlr : req.loadResult with
          | none =>
            rw [upload_eq_loadFail st sid req h3 hfp hfn hlr]
            exact ensureSession_ur st sid
          | some newChunks =>
            cases hek : req.embedOk with
            | false =>
              rw [upload_eq_embedFail st sid req newChunks h3 hfp hfn hlr hek]
              exact ensureSession_ur st sid
            | true =>
              rw [upload_eq_success st sid req newChunks h3 hfp hfn hlr hek] at h
              cases h

/-- Witness for C2 (amended): the first successful upload installs the
index over exactly its session's chunk list. -/
theorem index_prefix_of_chunks_witness :
    ∃ sess, (upload_file "s" reqA initState).2.session_data "s" = some sess ∧
      (upload_file "s" reqA initState).2.user_retrievers "s" = some sess.chunks :=
  index_prefix_of_chunks.2.1 initState "s" reqA (by decide)

/-- Counterexample to claim C4 as stated: a completion output with four
numbered lines parses to four suggestions, so the sequence is not bounded
by 3. -/
theorem suggestions_exceed_three_cex :
    ¬ ((parse_questions "1. A?\n2. B?\n3. C?\n4. D?").length ≤ 3) := by decide

/-- Claim C4 (amended): the suggestion parser returns at most one string
per line of the completion output — hence at most 3 whenever the output
has at most 3 lines — but applies no truncation of its own. -/
theorem suggestions_bounded_by_lines (s : String) :
    (parse_questions s).length ≤ s.data.count '\n' + 1 := by
  unfold parse_questions
  rw [List.length_map]
  exact findAll_length_le s.data.length s.data (le_refl _)

/-- Claim C5: the parser maps the canonical three-question output to
exactly its three questions with the numbering stripped; an input in
which the pattern matches at no line start parses to the empty sequence,
a valid non-error result; and prepending a non-matching prose line leaves
the extracted questions unchanged. -/
theorem parse_questions_spec :
    parse_questions "1. What is X?\n2. How does Y work?\n3. Why Z?" =
      ["What is X?", "How does Y work?", "Why Z?"] ∧
    (∀ s : String, (∀ t ∈ lineStarts s.data, matchNumbered t = none) →
      parse_questions s = []) ∧
    (∀ p s : List Char, '\n' ∉ p →
      matchNumbered (p ++ '\n' :: s) = none →
      parse_questions (String.mk (p ++ '\n' :: s)) =
        parse_questions (String.mk s)) := by
  refine ⟨by decide, ?_, ?_⟩
  · intro s hall
    unfold parse_questions
    rw [findAll_eq_nil s.data.length s.data (le_refl _) hall]
    rfl
  · intro p s hp hm
    unfold parse_questions
    rw [show (String.mk (p ++ '\n' :: s)).data = p ++ '\n' :: s from rfl]
    rw [show (String.mk s).data = s from rfl]
    rw [findAll_prose p s hp hm]

/-- Witness for C5 at a pattern-free input and at a prose-prefixed
input. -/
theorem parse_questions_spec_witness :
    parse_questions "no numbered lines here" = [] ∧
    parse_questions (String.mk (("Here are some questions:".data) ++ '\n' ::
        ("1. A?".data))) = parse_questions (String.mk ("1. A?".data)) :=
  ⟨parse_questions_spec.2.1 "no numbered lines here" (by decide),
   parse_questions_spec.2.2 ("Here are some questions:".data) ("1. A?".data)
     (by decide) (by decide)⟩

end AIChatbot
